import Mathlib

/- Verification of the EmbeddingExtractor pipeline (extract_embeddings.py).

   This file is a shallow embedding of the class EmbeddingExtractor: the
   pure data flow of GetImage, GetConfidence, ExtractEmbedding, ProcessImage
   and ProcessFolders is translated into Lean functions; the pretrained cv2
   dnn models (face detector, face embedder), cv2.imread and the pixel
   interpolation of cv2.resize are opaque external collaborators and enter
   the embedding as oracle fields of an Env value, at exactly the call
   boundaries the Python source uses.  Python exceptions are modelled with
   Except; the implicit "return None" of a Python function body that falls
   through is modelled as Except.ok none.

   Numeric model: Python float values are idealised as exact rationals,
   kept as an unreduced numerator / positive-denominator pair (PyFloat)
   with exact comparison and multiplication; numpy astype("int") is
   truncation toward zero.  Equality of PyFloat values is representation
   equality, the analogue of bit-identical floats. -/

set_option maxRecDepth 10000
set_option linter.unusedVariables false

deriving instance DecidableEq for Except

/-- Python error values that the translated code can raise. -/
inductive PyErr where
  | attributeError
  | indexError
  | valueError
deriving DecidableEq

/-- An exact numeric value: numerator over a positive denominator.  Stands
for a Python float in the pipeline (confidences, normalised box
coordinates, embedding entries). -/
structure PyFloat where
  num : Int
  den : ℕ+
deriving DecidableEq

instance : Inhabited PyFloat :=
  ⟨{ num := 0, den := 1 }⟩

/-- Exact order on PyFloat by cross multiplication. -/
def PyFloat.lt (a b : PyFloat) : Prop :=
  a.num * ((b.den : ℕ) : ℤ) < b.num * ((a.den : ℕ) : ℤ)

/-- Exact non-strict order on PyFloat by cross multiplication. -/
def PyFloat.le (a b : PyFloat) : Prop :=
  a.num * ((b.den : ℕ) : ℤ) ≤ b.num * ((a.den : ℕ) : ℤ)

instance : LT PyFloat := ⟨PyFloat.lt⟩

instance : LE PyFloat := ⟨PyFloat.le⟩

instance (a b : PyFloat) : Decidable (a < b) :=
  inferInstanceAs (Decidable (a.num * ((b.den : ℕ) : ℤ) < b.num * ((a.den : ℕ) : ℤ)))

instance (a b : PyFloat) : Decidable (a ≤ b) :=
  inferInstanceAs (Decidable (a.num * ((b.den : ℕ) : ℤ) ≤ b.num * ((a.den : ℕ) : ℤ)))

/-- The float literal 0.5 of the confidence threshold. -/
def half : PyFloat := { num := 1, den := 2 }

/-- numpy astype("int") of the exact product q * n: truncation toward
zero.  Both branches only divide non-negative integers, so plain Nat
division is the truncation. -/
def truncMul (q : PyFloat) (n : Nat) : Int :=
  if q.num < 0 then -((((-q.num).toNat * n) / (q.den : ℕ) : Nat) : Int)
  else ((q.num.toNat * n) / (q.den : ℕ) : Nat)

/-- A pixel value (the uint8 BGR content is never inspected by the code
under verification, only forwarded to the model oracles). -/
abbrev Pix := Nat

/-- A decoded image: a numpy uint8 array of shape (h, w, 3), kept as its
shape together with a pixel access function. -/
structure Image where
  h : Nat
  w : Nat
  pix : Nat → Nat → Pix

/-- One row detections[0, 0, k, :] of the detector forward output: index 2
of the row is the confidence, indices 3..6 the normalised box corners
(x1, y1, x2, y2).  Indices 0 and 1 (batch id, class id) are never read by
the source and are omitted. -/
structure Detection where
  conf : PyFloat
  x1 : PyFloat
  y1 : PyFloat
  x2 : PyFloat
  y2 : PyFloat
deriving DecidableEq

instance : Inhabited Detection :=
  ⟨{ conf := default, x1 := default, y1 := default, x2 := default, y2 := default }⟩

/-- detector.forward() returns a numpy array of shape (1, 1, N, 7).  The
two singleton outer axes are kept explicitly so that the Python expression
len(detections), which measures the FIRST axis only, is modelled
faithfully. -/
abbrev DetForward := List (List (List Detection))

/-- The constructor state of EmbeddingExtractor together with its opaque
external collaborators:
  * dataset     - the self._DATASET field set in __init__;
  * listImages  - imutils.paths.list_images, the recursive filesystem
                  enumeration of image files under a directory;
  * imread      - cv2.imread, none when the file contents cannot be
                  decoded as an image (cv2.imread returns None, it does
                  not raise);
  * cvResize    - pixel content produced by cv2.resize interpolation for
                  a requested target shape (h, w);
  * detect      - the rows detections[0, 0, :, :] of the detector forward
                  pass on the resized image (the 300x300 blob
                  preprocessing with means (104, 177, 123) is folded into
                  this oracle);
  * embed       - the (1, 128) float32 output of the embedder forward
                  pass on a cropped face (the 96x96, 1/255, swapRB blob
                  preprocessing is folded into this oracle). -/
structure Env where
  dataset : String
  listImages : String → List String
  imread : String → Option Image
  cvResize : Image → Nat → Nat → Nat → Nat → Pix
  detect : Image → List Detection
  embed : Image → List (List PyFloat)

/-- Normalisation of one endpoint of a numpy basic slice on an axis of
length n: a negative index counts from the end of the axis, then the
endpoint is clamped into [0, n].  Basic slicing never raises. -/
def npIdx (i : Int) (n : Nat) : Nat :=
  if i < 0 then (i + n).toNat else if i.toNat < n then i.toNat else n

/-- Number of entries selected by the numpy slice start:stop (step 1) on
an axis of length n. -/
def sliceLen (start stop : Int) (n : Nat) : Nat :=
  npIdx stop n - npIdx start n

/-- image[startY:endY, startX:endX]: numpy basic slicing of the first two
axes.  It clamps, never raises, and can produce an empty array; the numpy
shape of the result is (sliceLen startY endY h, sliceLen startX endX w)
even when one of the two lengths is zero. -/
def npCrop (image : Image) (startY endY startX endX : Int) : Image :=
  { h := sliceLen startY endY image.h
    w := sliceLen startX endX image.w
    pix := fun r c => image.pix (r + npIdx startY image.h) (c + npIdx startX image.w) }

/-- Python str.split(sep) on the character list of a string: splits at
every separator occurrence and keeps empty components. -/
def splitChars (sep : Char) : List Char → List (List Char)
  | [] => [[]]
  | c :: cs =>
    let rest := splitChars sep cs
    if c = sep then [] :: rest
    else
      match rest with
      | [] => [[c]]
      | r :: rs => (c :: r) :: rs

/-- imagePath.split(os.path.sep) with the POSIX path separator. -/
def splitPath (s : String) : List String :=
  (splitChars '/' s.data).map String.mk

/-- Python negative indexing lst[-2]: the second component from the end,
an IndexError when the list has fewer than two entries. -/
def pyGetNeg2 (l : List String) : Except PyErr String :=
  if 2 ≤ l.length then .ok (l.getD (l.length - 2) "") else .error .indexError

/-- imutils.resize(image, width=600): r = width / float(w), target cv2
dimensions (width, int(h * r)), content interpolated by cv2.resize.  In
exact arithmetic int(h * (width / w)) is the Nat division h * width / w
(all quantities are non-negative, so truncation is floor).  Translated
from the imutils library function called at src line 105. -/
def imutilsResize (cvr : Image → Nat → Nat → Nat → Nat → Pix) (image : Image)
    (width : Nat) : Image :=
  let newH := image.h * width / image.w
  { h := newH, w := width, pix := cvr image newH width }

/-- GetImage (src lines 90..105).  cv2.imread returns None when the file
contents cannot be decoded; imutils.resize then immediately evaluates
image.shape on that None value and an AttributeError is raised.  There is
no try/except anywhere in the class, so the error propagates to the
caller of GetImage. -/
def GetImage (env : Env) (imagePath : String) : Except PyErr Image :=
  match env.imread imagePath with
  | none => .error .attributeError
  | some image => .ok (imutilsResize env.cvResize image 600)

/-- ExtractEmbedding (src lines 52..85), with self.embedder passed as the
embed argument.  The face is the numpy slice image[startY:endY,
startX:endX]; (fH, fW) = face.shape[:2]; when either dimension is below
20 the function returns None, otherwise the embedder forward pass runs on
the face crop and its output is returned. -/
def ExtractEmbedding (embed : Image → List (List PyFloat)) (image : Image)
    (startX endX startY endY : Int) : Option (List (List PyFloat)) :=
  let face := npCrop image startY endY startX endX
  let fH := face.h
  let fW := face.w
  if fW < 20 ∨ fH < 20 then none
  else some (embed face)

/-- GetConfidence (src lines 87..88): detections[0, 0, element, 2].  The
callers only pass an in-range element, so the default value of getD is
never read. -/
def GetConfidence (detections : DetForward) (element : Nat) : PyFloat :=
  (((detections.getD 0 []).getD 0 []).getD element default).conf

/-- Accumulator loop of np.argmax: scans left to right keeping the first
index whose value is strictly greater than the best so far. -/
def argmaxGo (best : PyFloat) (bestIdx i : Nat) : List PyFloat → PyFloat × Nat
  | [] => (best, bestIdx)
  | y :: ys => if best < y then argmaxGo y i (i + 1) ys else argmaxGo best bestIdx (i + 1) ys

/-- Index of the first maximal entry of a nonempty list (0 on []). -/
def argmaxIdx (l : List PyFloat) : Nat :=
  match l with
  | [] => 0
  | x :: xs => (argmaxGo x 0 1 xs).2

/-- np.argmax over a one dimensional slice: a ValueError on an empty
slice ("attempt to get argmax of an empty sequence"), otherwise the index
of the first maximal entry. -/
def npArgmax (l : List PyFloat) : Except PyErr Nat :=
  match l with
  | [] => .error .valueError
  | _ :: _ => .ok (argmaxIdx l)

/-- ProcessImage (src lines 148..196).
  * line 164: name = imagePath.split(os.path.sep)[-2];
  * line 166: image = self.GetImage(imagePath);
  * line 167: (h, w) = image.shape[:2] - the dimensions of the RESIZED
    image returned by GetImage;
  * lines 170..176: detector forward pass, output shape (1, 1, N, 7);
  * line 179: if len(detections) > 0 - len of the first axis;
  * line 180: i = np.argmax(detections[0, 0, :, 2]);
  * line 186: if confidence > 0.5;
  * lines 188..189: box = detections[0, 0, i, 3:7] * np.array([w, h, w, h]),
    (startX, startY, endX, endY) = box.astype("int");
  * lines 192..196: embedding extraction, then (vec, name).
  A Python body that falls through returns None implicitly: both the
  failed length guard and the failed confidence guard end as Except.ok
  none, the skip signal of the batch loop. -/
def ProcessImage (env : Env) (imagePath : String) :
    Except PyErr (Option (List (List PyFloat) × String)) :=
  match pyGetNeg2 (splitPath imagePath) with
  | .error e => .error e
  | .ok name =>
    match GetImage env imagePath with
    | .error e => .error e
    | .ok image =>
      let h := image.h
      let w := image.w
      let detections : DetForward := [[env.detect image]]
      if detections.length > 0 then
        match npArgmax (((detections.getD 0 []).getD 0 []).map Detection.conf) with
        | .error e => .error e
        | .ok i =>
          let confidence := GetConfidence detections i
          if half < confidence then
            let d := ((detections.getD 0 []).getD 0 []).getD i default
            let startX := truncMul d.x1 w
            let startY := truncMul d.y1 h
            let endX := truncMul d.x2 w
            let endY := truncMul d.y2 h
            match ExtractEmbedding env.embed image startX endX startY endY with
            | none => .ok none
            | some vec => .ok (some (vec, name))
          else .ok none
      else .ok none

/-- The accumulated batch state of ProcessFolders and the serialized
artifact: data = \x7b"embeddings": knownEmbeddings, "names": knownNames\x7d
written with pickle, plus the printed counter total (initialised to 1 by
the source). -/
structure Output where
  embeddings : List (List PyFloat)
  names : List String
  total : Nat
deriving DecidableEq

/-- knownEmbeddings = [], knownNames = [], total = 1 (src lines 122..124). -/
def initOutput : Output :=
  { embeddings := [], names := [], total := 1 }

/-- One iteration of the ProcessFolders batch loop (src lines 127..138):
on None the image is logged and skipped (continue), otherwise the label
and the flattened embedding are appended to the two accumulator lists and
total is incremented. -/
def processStep (env : Env) (acc : Output) (imagePath : String) : Except PyErr Output :=
  match ProcessImage env imagePath with
  | .error e => .error e
  | .ok none => .ok acc
  | .ok (some (vec, name)) =>
    .ok { embeddings := acc.embeddings ++ [vec.flatten]
          names := acc.names ++ [name]
          total := acc.total + 1 }

/-- ProcessFolders (src lines 107..145).  Line 118 enumerates
paths.list_images(self._DATASET): the imageFolder parameter is never read
by the body.  An uncaught exception of any iteration aborts the loop and
no artifact is written; on completion the serialized artifact is the
final Output value. -/
def ProcessFolders (env : Env) (imageFolder : String) : Except PyErr Output :=
  List.foldlM (processStep env) initOutput (env.listImages env.dataset)

/-- The batch loop treats the Ok None outcome of ProcessImage as the skip
signal for one image. -/
def isSkip (env : Env) (imagePath : String) : Bool :=
  match ProcessImage env imagePath with
  | .ok none => true
  | _ => false

/-- Number of discovered images the batch loop skips. -/
def skippedCount (env : Env) (paths : List String) : Nat :=
  (paths.filter (isSkip env)).length

/-- The detection row selected by the argmax policy of line 180. -/
def bestOf (rows : List Detection) : Detection :=
  rows.getD (argmaxIdx (rows.map Detection.conf)) default

/-- The value ProcessImage computes once name extraction and image
loading have succeeded and the detector returned the rows of its forward
pass: only the argmax row enters the confidence test, the denormalisation
(against the dimensions of the resized image) and the crop. -/
def bestOnlyResult (env : Env) (img : Image) (name : String) :
    Except PyErr (Option (List (List PyFloat) × String)) :=
  let best := bestOf (env.detect img)
  if half < best.conf then
    match ExtractEmbedding env.embed img (truncMul best.x1 img.w)
        (truncMul best.x2 img.w) (truncMul best.y1 img.h)
        (truncMul best.y2 img.h) with
    | none => .ok none
    | some vec => .ok (some (vec, name))
  else .ok none

/-- Modelled from the spec: the label of an image is the name of the
immediate parent directory of its path, the component just before the
file name when the path is split on the path separator. -/
def specParentDirName (path : String) : String :=
  (splitPath path).getD ((splitPath path).length - 2) ""

-- Concrete test environments ------------------------------------------------

/-- A constant interpolation oracle for cv2.resize. -/
def cvrZero : Image → Nat → Nat → Nat → Nat → Pix := fun _ _ _ _ _ => 0

/-- A 450 x 600 decoded test image. -/
def imgA : Image := { h := 450, w := 600, pix := fun _ _ => 1 }

/-- A 300 x 600 decoded test image. -/
def imgB : Image := { h := 300, w := 600, pix := fun _ _ => 2 }

/-- A 900 x 1200 decoded test image (twice the target width). -/
def imgWide : Image := { h := 900, w := 1200, pix := fun _ _ => 3 }

/-- Embedder oracle with a fixed (1, 1) output. -/
def embed7 : Image → List (List PyFloat) := fun _ => [[{ num := 7, den := 1 }]]

/-- Embedder oracle recording the shape (h, w) of the crop it receives,
used to observe which crop coordinates ProcessImage computed. -/
def embedShape : Image → List (List PyFloat) :=
  fun im => [[{ num := im.h, den := 1 }, { num := im.w, den := 1 }]]

/-- A high-confidence full-frame detection row. -/
def detFull : Detection :=
  { conf := { num := 9, den := 10 }, x1 := { num := 0, den := 1 },
    y1 := { num := 0, den := 1 }, x2 := { num := 1, den := 1 },
    y2 := { num := 1, den := 1 } }

/-- A low-confidence full-frame detection row. -/
def detLow : Detection :=
  { conf := { num := 1, den := 4 }, x1 := { num := 0, den := 1 },
    y1 := { num := 0, den := 1 }, x2 := { num := 1, den := 1 },
    y2 := { num := 1, den := 1 } }

/-- Environment with one clear face photo of alice and one low-confidence
photo of bob; the detector oracle distinguishes the two images by their
height. -/
def wEnv : Env :=
  { dataset := "ds"
    listImages := fun _ => ["ds/alice/a.png", "ds/bob/low.png"]
    imread := fun p =>
      if p = "ds/alice/a.png" then some imgA
      else if p = "ds/bob/low.png" then some imgB
      else none
    cvResize := cvrZero
    detect := fun im => if im.h = 450 then [detFull] else [detLow]
    embed := embed7 }

/-- wEnv with a different imread outcome at a path that is not in the
dataset listing (and the same model oracles). -/
def wEnv2 : Env :=
  { wEnv with imread := fun p => if p = "other.png" then some imgB else wEnv.imread p }

/-- The resized form of imgA under the wEnv interpolation oracle. -/
def wImgAr : Image := imutilsResize wEnv.cvResize imgA 600

/-- Environment whose dataset listing starts with an undecodable file:
cv2.imread returns None for ds/alice/bad.png. -/
def c1env : Env :=
  { dataset := "ds"
    listImages := fun _ => ["ds/alice/bad.png", "ds/alice/good.png"]
    imread := fun p => if p = "ds/alice/bad.png" then none else some imgA
    cvResize := cvrZero
    detect := fun _ => [detFull]
    embed := embed7 }

/-- Environment whose constructor dataset is "A" while the filesystem has
images only under "A": listing any other directory is empty. -/
def c2env : Env :=
  { dataset := "A"
    listImages := fun d => if d = "A" then ["A/alice/a.png"] else []
    imread := fun _ => some imgA
    cvResize := cvrZero
    detect := fun _ => [detFull]
    embed := embed7 }

/-- Environment with one image on which the detector returns zero rows
(forward output of shape (1, 1, 0, 7)) and one image with a single
low-confidence row; the oracle distinguishes the images by height. -/
def c4env : Env :=
  { dataset := "ds"
    listImages := fun _ => ["ds/a/empty.png", "ds/a/low.png"]
    imread := fun p => if p = "ds/a/empty.png" then some imgA else some imgB
    cvResize := cvrZero
    detect := fun im => if im.h = 450 then [] else [detLow]
    embed := embed7 }

/-- A confident detection whose box is a tiny fraction of the frame. -/
def detTiny : Detection :=
  { conf := { num := 9, den := 10 }, x1 := { num := 0, den := 1 },
    y1 := { num := 0, den := 1 }, x2 := { num := 1, den := 100 },
    y2 := { num := 1, den := 100 } }

/-- Environment where the accepted detection denormalises to a crop far
below 20 x 20 pixels. -/
def c5env : Env :=
  { dataset := "ds"
    listImages := fun _ => ["ds/tiny/t.png"]
    imread := fun _ => some imgA
    cvResize := cvrZero
    detect := fun _ => [detTiny]
    embed := embed7 }

/-- The resized image of the c5env photo. -/
def c5imgR : Image := imutilsResize c5env.cvResize imgA 600

/-- A confident detection of the upper-left quarter of the frame. -/
def detQuarter : Detection :=
  { conf := { num := 9, den := 10 }, x1 := { num := 0, den := 1 },
    y1 := { num := 0, den := 1 }, x2 := { num := 1, den := 2 },
    y2 := { num := 1, den := 2 } }

/-- Environment whose photo is 900 x 1200, twice the 600 target width,
with a shape-recording embedder: the recorded crop shape reveals which
dimensions the box was denormalised against. -/
def c8env : Env :=
  { dataset := "ds"
    listImages := fun _ => ["ds/alice/a.png"]
    imread := fun _ => some imgWide
    cvResize := cvrZero
    detect := fun _ => [detQuarter]
    embed := embedShape }

/-- The resized image of the c8env photo: 450 x 600. -/
def c8imgR : Image := imutilsResize c8env.cvResize imgWide 600


-- Order facts for PyFloat -----------------------------------------------------

lemma PyFloat.le_refl (a : PyFloat) : a ≤ a := Int.le_refl _

lemma PyFloat.le_of_lt {a b : PyFloat} (h : a < b) : a ≤ b := Int.le_of_lt h

lemma PyFloat.le_of_not_lt {a b : PyFloat} (h : ¬ a < b) : b ≤ a := Int.not_lt.mp h

lemma PyFloat.le_trans {a b c : PyFloat} (h1 : a ≤ b) (h2 : b ≤ c) : a ≤ c := by
  have ha : (0 : ℤ) < ((a.den : ℕ) : ℤ) := by exact_mod_cast a.den.2
  have hb : (0 : ℤ) < ((b.den : ℕ) : ℤ) := by exact_mod_cast b.den.2
  have hc : (0 : ℤ) < ((c.den : ℕ) : ℤ) := by exact_mod_cast c.den.2
  have h1' : a.num * ((b.den : ℕ) : ℤ) ≤ b.num * ((a.den : ℕ) : ℤ) := h1
  have h2' : b.num * ((c.den : ℕ) : ℤ) ≤ c.num * ((b.den : ℕ) : ℤ) := h2
  show a.num * ((c.den : ℕ) : ℤ) ≤ c.num * ((a.den : ℕ) : ℤ)
  nlinarith

-- Specification of the argmax selection --------------------------------------

lemma argmaxGo_cons_pos (best y : PyFloat) (bi i : Nat) (ys : List PyFloat)
    (h : best < y) : argmaxGo best bi i (y :: ys) = argmaxGo y i (i + 1) ys := by
  simp [argmaxGo, h]

lemma argmaxGo_cons_neg (best y : PyFloat) (bi i : Nat) (ys : List PyFloat)
    (h : ¬ best < y) : argmaxGo best bi i (y :: ys) = argmaxGo best bi (i + 1) ys := by
  simp [argmaxGo, h]

/-- The running maximum of argmaxGo bounds the seed and every scanned
entry. -/
lemma argmaxGo_max : ∀ (ys : List PyFloat) (best : PyFloat) (bi i : Nat),
    best ≤ (argmaxGo best bi i ys).1 ∧ ∀ c ∈ ys, c ≤ (argmaxGo best bi i ys).1 := by
  intro ys
  induction ys with
  | nil =>
    intro best bi i
    exact ⟨PyFloat.le_refl best, by intro c hc; cases hc⟩
  | cons y ys ih =>
    intro best bi i
    by_cases hlt : best < y
    · rw [argmaxGo_cons_pos best y bi i ys hlt]
      obtain ⟨h1, h2⟩ := ih y i (i + 1)
      refine ⟨PyFloat.le_trans (PyFloat.le_of_lt hlt) h1, ?_⟩
      intro c hc
      rcases List.mem_cons.mp hc with rfl | hc
      · exact h1
      · exact h2 c hc
    · rw [argmaxGo_cons_neg best y bi i ys hlt]
      obtain ⟨h1, h2⟩ := ih best bi (i + 1)
      refine ⟨h1, ?_⟩
      intro c hc
      rcases List.mem_cons.mp hc with rfl | hc
      · exact PyFloat.le_trans (PyFloat.le_of_not_lt hlt) h1
      · exact h2 c hc

/-- The result of argmaxGo is either the seed pair or an entry of the
scanned list together with its absolute index. -/
lemma argmaxGo_pos : ∀ (ys : List PyFloat) (best : PyFloat) (bi i : Nat),
    argmaxGo best bi i ys = (best, bi) ∨
    ∃ j, j < ys.length ∧ (argmaxGo best bi i ys).2 = i + j ∧
      (argmaxGo best bi i ys).1 = ys.getD j default := by
  intro ys
  induction ys with
  | nil => intro best bi i; exact Or.inl rfl
  | cons y ys ih =>
    intro best bi i
    by_cases hlt : best < y
    · rw [argmaxGo_cons_pos best y bi i ys hlt]
      rcases ih y i (i + 1) with h | ⟨j, hj, hsnd, hfst⟩
      · refine Or.inr ⟨0, by simp, ?_, ?_⟩
        · rw [h]; simp
        · rw [h]; simp
      · refine Or.inr ⟨j + 1, by simpa using hj, by omega, by simpa using hfst⟩
    · rw [argmaxGo_cons_neg best y bi i ys hlt]
      rcases ih best bi (i + 1) with h | ⟨j, hj, hsnd, hfst⟩
      · exact Or.inl h
      · exact Or.inr ⟨j + 1, by simpa using hj, by omega, by simpa using hfst⟩

lemma argmaxIdx_cons (x : PyFloat) (xs : List PyFloat) :
    argmaxIdx (x :: xs) = (argmaxGo x 0 1 xs).2 := rfl

/-- On a nonempty list the argmax index is in range. -/
lemma argmaxIdx_lt (x : PyFloat) (xs : List PyFloat) :
    argmaxIdx (x :: xs) < (x :: xs).length := by
  rw [argmaxIdx_cons]
  rcases argmaxGo_pos xs x 0 1 with h | ⟨j, hj, hsnd, _⟩
  · rw [h]; simp
  · rw [hsnd]; simp; omega

/-- The entry at the argmax index bounds every entry of the list. -/
lemma argmaxIdx_max (x : PyFloat) (xs : List PyFloat) :
    ∀ c ∈ x :: xs, c ≤ (x :: xs).getD (argmaxIdx (x :: xs)) default := by
  obtain ⟨h1, h2⟩ := argmaxGo_max xs x 0 1
  have hval : (x :: xs).getD (argmaxIdx (x :: xs)) default = (argmaxGo x 0 1 xs).1 := by
    rw [argmaxIdx_cons]
    rcases argmaxGo_pos xs x 0 1 with h | ⟨j, hj, hsnd, hfst⟩
    · rw [h]; rfl
    · rw [hsnd, hfst]
      have : 1 + j = j + 1 := by omega
      rw [this]
      simp [List.getD]
  intro c hc
  rw [hval]
  rcases List.mem_cons.mp hc with rfl | hc
  · exact h1
  · exact h2 c hc

/-- getD of a mapped list at an in-range index. -/
lemma getD_conf_map (rows : List Detection) (i : Nat) (h : i < rows.length) :
    (rows.map Detection.conf).getD i default = (rows.getD i default).conf := by
  induction rows generalizing i with
  | nil => cases h
  | cons r rs ih =>
    cases i with
    | zero => rfl
    | succ n => exact ih n (Nat.lt_of_succ_lt_succ h)

/-- The argmax row of a nonempty candidate list carries the maximal
confidence of the list. -/
lemma bestOf_max (rows : List Detection) (hne : rows ≠ []) :
    ∀ d ∈ rows, d.conf ≤ (bestOf rows).conf := by
  intro d hd
  match rows, hne with
  | r :: rs, _ =>
    have hlt : argmaxIdx ((r :: rs).map Detection.conf) < (r :: rs).length := by
      have := argmaxIdx_lt r.conf (rs.map Detection.conf)
      simpa using this
    have hmax := argmaxIdx_max r.conf (rs.map Detection.conf) d.conf
        (by simpa using List.mem_map_of_mem Detection.conf hd)
    unfold bestOf
    have hmap : ((r :: rs).map Detection.conf).getD
        (argmaxIdx ((r :: rs).map Detection.conf)) default
        = ((r :: rs).getD (argmaxIdx ((r :: rs).map Detection.conf)) default).conf :=
      getD_conf_map (r :: rs) _ hlt
    have hmax' : d.conf ≤ ((r :: rs).map Detection.conf).getD
        (argmaxIdx ((r :: rs).map Detection.conf)) default := by
      simpa using hmax
    rw [hmap] at hmax'
    exact hmax'

/-- Once name extraction and image loading succeed and the detector has
produced a nonempty candidate list, ProcessImage computes exactly the
best-row pipeline. -/
lemma ProcessImage_char (env : Env) (path name : String) (img : Image)
    (hname : pyGetNeg2 (splitPath path) = .ok name)
    (himg : GetImage env path = .ok img)
    (hne : env.detect img ≠ []) :
    ProcessImage env path = bestOnlyResult env img name := by
  unfold ProcessImage bestOnlyResult bestOf
  rw [hname, himg]
  dsimp only
  cases hd : env.detect img with
  | nil => exact absurd hd hne
  | cons r rs => rfl

/-- Accumulator bookkeeping of the batch loop: when a fold over some path
list completes without an uncaught exception, the two accumulator lists
grow in lockstep and the growth of names counts exactly the non-skipped
paths. -/
lemma foldl_lengths (env : Env) :
    ∀ (paths : List String) (acc out : Output),
      List.foldlM (processStep env) acc paths = .ok out →
      out.embeddings.length + acc.names.length
        = out.names.length + acc.embeddings.length ∧
      out.names.length + skippedCount env paths = acc.names.length + paths.length := by
  intro paths
  induction paths with
  | nil =>
    intro acc out h
    have h' : (Except.ok acc : Except PyErr Output) = .ok out := h
    cases h'
    exact ⟨by omega, by simp [skippedCount]⟩
  | cons p ps ih =>
    intro acc out h
    rw [List.foldlM_cons] at h
    cases hstep : processStep env acc p with
    | error e =>
      rw [hstep] at h
      exact Except.noConfusion h
    | ok acc' =>
      rw [hstep] at h
      have h' : List.foldlM (processStep env) acc' ps = .ok out := h
      obtain ⟨ih1, ih2⟩ := ih acc' out h'
      unfold processStep at hstep
      cases hpi : ProcessImage env p with
      | error e => rw [hpi] at hstep; exact Except.noConfusion hstep
      | ok res =>
        rw [hpi] at hstep
        have hskip : skippedCount env (p :: ps)
            = (if isSkip env p then 1 else 0) + skippedCount env ps := by
          unfold skippedCount
          rw [List.filter_cons]
          split
          · simp only [List.length_cons]; omega
          · omega
        cases res with
        | none =>
          have hacc : acc = acc' := by
            have hh : (Except.ok acc : Except PyErr Output) = .ok acc' := hstep
            cases hh; rfl
          have hsk : isSkip env p = true := by unfold isSkip; rw [hpi]
          rw [hsk] at hskip
          simp at hskip
          subst hacc
          refine ⟨by omega, ?_⟩
          simp only [List.length_cons]
          omega
        | some pr =>
          obtain ⟨vec, name⟩ := pr
          have hacc : acc' = { embeddings := acc.embeddings ++ [vec.flatten]
                               names := acc.names ++ [name]
                               total := acc.total + 1 } := by
            have hh : (Except.ok { embeddings := acc.embeddings ++ [vec.flatten]
                                   names := acc.names ++ [name]
                                   total := acc.total + 1 } : Except PyErr Output)
                = .ok acc' := hstep
            cases hh; rfl
          have e1 : acc'.embeddings.length = acc.embeddings.length + 1 := by
            rw [hacc]; simp
          have e2 : acc'.names.length = acc.names.length + 1 := by
            rw [hacc]; simp
          have hsk : isSkip env p = false := by unfold isSkip; rw [hpi]
          rw [hsk] at hskip
          simp at hskip
          refine ⟨by omega, ?_⟩
          simp only [List.length_cons]
          omega

/-- ProcessImage reads the environment only through imread at its own
path and through the three model oracles. -/
lemma ProcessImage_congr (e₁ e₂ : Env) (p : String)
    (h1 : e₁.imread p = e₂.imread p) (h2 : e₁.cvResize = e₂.cvResize)
    (h3 : e₁.detect = e₂.detect) (h4 : e₁.embed = e₂.embed) :
    ProcessImage e₁ p = ProcessImage e₂ p := by
  unfold ProcessImage GetImage
  rw [h1]
  simp only [h2, h3, h4]

/-- One batch step likewise depends only on imread at its path and the
model oracles. -/
lemma processStep_congr (e₁ e₂ : Env) (p : String)
    (h1 : e₁.imread p = e₂.imread p) (h2 : e₁.cvResize = e₂.cvResize)
    (h3 : e₁.detect = e₂.detect) (h4 : e₁.embed = e₂.embed) (acc : Output) :
    processStep e₁ acc p = processStep e₂ acc p := by
  unfold processStep
  rw [ProcessImage_congr e₁ e₂ p h1 h2 h3 h4]

/-- Folding two step functions that agree on every element of the list
gives the same result from any start state. -/
lemma foldlM_congr_of_mem {α : Type} (f g : Output → α → Except PyErr Output) :
    ∀ (l : List α), (∀ a ∈ l, ∀ b, f b a = g b a) →
      ∀ acc, List.foldlM f acc l = List.foldlM g acc l := by
  intro l
  induction l with
  | nil => intro _ acc; rfl
  | cons a as ih =>
    intro h acc
    rw [List.foldlM_cons, List.foldlM_cons, h a (List.mem_cons_self a as) acc]
    cases hg : g acc a with
    | error e => rfl
    | ok b => exact ih (fun x hx b' => h x (List.mem_cons_of_mem a hx) b') b

-- Claim theorems --------------------------------------------------------------

/-- C1: The claim says that for a file whose contents cannot be decoded
as an image ProcessImage returns the skip signal rather than raising, and
the batch loop continues.  The code does the opposite: cv2.imread returns
None for the undecodable ds/alice/bad.png, imutils.resize then evaluates
image.shape on None and the resulting AttributeError propagates uncaught,
so ProcessImage raises and ProcessFolders aborts the whole batch even
though the remaining image ds/alice/good.png was processable on its
own. -/
theorem C1_decode_failure_aborts :
    ProcessImage c1env "ds/alice/bad.png" = .error .attributeError ∧
    ProcessImage c1env "ds/alice/good.png"
      = .ok (some ([[{ num := 7, den := 1 }]], "alice")) ∧
    ProcessFolders c1env "ds" = .error .attributeError := by
  decide

/-- C2: The claim says ProcessFolders d enumerates and processes exactly
the image files under the argument d.  The code ignores the argument and
enumerates self._DATASET: in c2env the dataset field is "A", the
directory "B" contains no images at all, and yet ProcessFolders c2env "B"
processes the one image under "A" and produces its embedding and
label. -/
theorem C2_argument_ignored :
    c2env.listImages "B" = [] ∧
    ProcessFolders c2env "B"
      = .ok { embeddings := [[{ num := 7, den := 1 }]], names := ["alice"], total := 2 } := by
  decide

/-- C3: When ProcessFolders completes, the serialized output has as many
embeddings as names, and that common count plus the number of skipped
images equals the number of images discovered; the two accumulator lists
also have equal length after any prefix of the batch loop. -/
theorem C3_parallel_lengths (env : Env) (folder : String) (out acc : Output) (n : Nat)
    (h : ProcessFolders env folder = .ok out)
    (hpref : List.foldlM (processStep env) initOutput
      ((env.listImages env.dataset).take n) = .ok acc) :
    out.embeddings.length = out.names.length ∧
    out.names.length + skippedCount env (env.listImages env.dataset)
      = (env.listImages env.dataset).length ∧
    acc.embeddings.length = acc.names.length := by
  unfold ProcessFolders at h
  obtain ⟨h1, h2⟩ := foldl_lengths env (env.listImages env.dataset) initOutput out h
  obtain ⟨h3, _⟩ := foldl_lengths env ((env.listImages env.dataset).take n) initOutput acc hpref
  unfold initOutput at h1 h2 h3
  simp only [List.length_nil] at h1 h2 h3
  exact ⟨by omega, by omega, by omega⟩

/-- C3 witness: in wEnv two images are discovered, one is processed and
one is skipped, and the length bookkeeping holds both at the end and
after the first loop iteration. -/
theorem C3_witness :
    (Output.mk [[{ num := 7, den := 1 }]] ["alice"] 2).embeddings.length
      = (Output.mk [[{ num := 7, den := 1 }]] ["alice"] 2).names.length ∧
    (Output.mk [[{ num := 7, den := 1 }]] ["alice"] 2).names.length
        + skippedCount wEnv (wEnv.listImages wEnv.dataset)
      = (wEnv.listImages wEnv.dataset).length ∧
    (Output.mk [[{ num := 7, den := 1 }]] ["alice"] 2).embeddings.length
      = (Output.mk [[{ num := 7, den := 1 }]] ["alice"] 2).names.length :=
  C3_parallel_lengths wEnv "ds" (Output.mk [[{ num := 7, den := 1 }]] ["alice"] 2)
    (Output.mk [[{ num := 7, den := 1 }]] ["alice"] 2) 1 (by decide) (by decide)

/-- C4: The claim says an image whose best detection has confidence at
most 0.5 yields the no-result outcome, including the case of zero
detections.  With at least one candidate row the code indeed returns the
skip signal (second conjunct, confidence 1/4), but with zero candidate
rows the guard len(detections) > 0 still passes - it measures the first
axis of the (1, 1, 0, 7) array, which is 1 - and np.argmax then raises
ValueError on the empty confidence slice (first conjunct), contradicting
the comment "ensure at least one face was found" above the guard. -/
theorem C4_zero_detections_raise :
    ProcessImage c4env "ds/a/empty.png" = .error .valueError ∧
    ProcessImage c4env "ds/a/low.png" = .ok none := by
  decide

/-- C5: When the cropped region has width or height below 20 pixels,
ExtractEmbedding returns none and the embedding model is not invoked (the
result is the same under every embedder oracle); when both clamped
dimensions are at least 20 the embedder is invoked on the crop; and when
the accepted best detection denormalises to such a small crop,
ProcessImage returns the no-result skip signal. -/
theorem C5_size_guard (f : Image → List (List PyFloat)) (image : Image)
    (sx ex sy ey : Int) (env : Env) (path name : String) (img : Image) :
    (sliceLen sx ex image.w < 20 ∨ sliceLen sy ey image.h < 20 →
      ∀ g : Image → List (List PyFloat), ExtractEmbedding g image sx ex sy ey = none) ∧
    (20 ≤ sliceLen sx ex image.w → 20 ≤ sliceLen sy ey image.h →
      ExtractEmbedding f image sx ex sy ey = some (f (npCrop image sy ey sx ex))) ∧
    (pyGetNeg2 (splitPath path) = .ok name →
      GetImage env path = .ok img →
      env.detect img ≠ [] →
      ExtractEmbedding env.embed img
          (truncMul (bestOf (env.detect img)).x1 img.w)
          (truncMul (bestOf (env.detect img)).x2 img.w)
          (truncMul (bestOf (env.detect img)).y1 img.h)
          (truncMul (bestOf (env.detect img)).y2 img.h) = none →
      ProcessImage env path = .ok none) := by
  refine ⟨?_, ?_, ?_⟩
  · intro hsmall g
    unfold ExtractEmbedding
    exact if_pos hsmall
  · intro h1 h2
    unfold ExtractEmbedding
    refine if_neg ?_
    have hw : (npCrop image sy ey sx ex).w = sliceLen sx ex image.w := rfl
    have hh : (npCrop image sy ey sx ex).h = sliceLen sy ey image.h := rfl
    rw [hw, hh]
    push_neg
    omega
  · intro hname himg hne hext
    rw [ProcessImage_char env path name img hname himg hne]
    unfold bestOnlyResult
    dsimp only
    rw [hext]
    split <;> rfl

/-- C5 witness: a 10 pixel wide slice is rejected under two different
embedder oracles, a 600 x 450 slice reaches the embedder, and in c5env an
accepted confident detection with a 6 x 4 pixel crop makes ProcessImage
return the skip signal. -/
theorem C5_witness :
    ExtractEmbedding embedShape imgA 0 10 0 10 = none ∧
    ExtractEmbedding embed7 imgA 0 10 0 10 = none ∧
    ExtractEmbedding embed7 imgA 0 600 0 450 = some (embed7 (npCrop imgA 0 450 0 600)) ∧
    ProcessImage c5env "ds/tiny/t.png" = .ok none :=
  ⟨(C5_size_guard embed7 imgA 0 10 0 10 c5env "ds/tiny/t.png" "tiny" imgA).1
      (by decide) embedShape,
   (C5_size_guard embed7 imgA 0 10 0 10 c5env "ds/tiny/t.png" "tiny" imgA).1
      (by decide) embed7,
   (C5_size_guard embed7 imgA 0 600 0 450 c5env "ds/tiny/t.png" "tiny" imgA).2.1
      (by decide) (by decide),
   (C5_size_guard embed7 imgA 0 0 0 0 c5env "ds/tiny/t.png" "tiny" c5imgR).2.2
      (by decide) (by rfl) (by decide) (by decide)⟩

/-- C6: Whenever ProcessImage succeeds with an embedding and a label, the
label is the name of the immediate parent directory of the image path,
the second component from the end of the separator-split path. -/
theorem C6_label_is_parent_dir (env : Env) (path : String)
    (vec : List (List PyFloat)) (name : String)
    (h : ProcessImage env path = .ok (some (vec, name))) :
    name = specParentDirName path := by
  unfold ProcessImage at h
  cases hname : pyGetNeg2 (splitPath path) with
  | error e => rw [hname] at h; exact Except.noConfusion h
  | ok nm =>
    rw [hname] at h
    have hnm : nm = specParentDirName path := by
      unfold pyGetNeg2 at hname
      split at hname
      · rw [← Except.ok.inj hname]; rfl
      · exact Except.noConfusion hname
    cases himg : GetImage env path with
    | error e => rw [himg] at h; exact Except.noConfusion h
    | ok image =>
      rw [himg] at h
      dsimp only at h
      split at h
      · -- at least the length guard passed
        split at h
        · exact Except.noConfusion h
        · -- an argmax index was produced; then the confidence test
          split at h
          · -- accepted: the final match decides the result
            split at h
            · exact Option.noConfusion (Except.ok.inj h)
            · have hpair := Option.some.inj (Except.ok.inj h)
              have hn : name = nm := (Prod.mk.injEq _ _ _ _ |>.mp hpair).2.symm
              rw [hn, hnm]
          · exact Option.noConfusion (Except.ok.inj h)
      · exact Option.noConfusion (Except.ok.inj h)

/-- C6 witness: the successful wEnv image under ds/alice gets the label
alice, the name of its parent directory. -/
theorem C6_witness : "alice" = specParentDirName "ds/alice/a.png" :=
  C6_label_is_parent_dir wEnv "ds/alice/a.png" [[{ num := 7, den := 1 }]] "alice" (by decide)

/-- C7: For a nonempty candidate list the selected row bestOf carries the
maximal confidence over all candidates (the argmax of line 180), and
ProcessImage equals the pipeline that uses only that row - its
confidence for the threshold test and its box for the crop. -/
theorem C7_argmax_selection (env : Env) (path name : String) (img : Image)
    (hname : pyGetNeg2 (splitPath path) = .ok name)
    (himg : GetImage env path = .ok img)
    (hne : env.detect img ≠ []) :
    (∀ d ∈ env.detect img, d.conf ≤ (bestOf (env.detect img)).conf) ∧
    ProcessImage env path = bestOnlyResult env img name :=
  ⟨bestOf_max (env.detect img) hne, ProcessImage_char env path name img hname himg hne⟩

/-- C7 witness: the wEnv alice image has a nonempty candidate list; the
selected row is maximal and ProcessImage equals the best-row pipeline. -/
theorem C7_witness :
    (∀ d ∈ wEnv.detect wImgAr, d.conf ≤ (bestOf (wEnv.detect wImgAr)).conf) ∧
    ProcessImage wEnv "ds/alice/a.png" = bestOnlyResult wEnv wImgAr "alice" :=
  C7_argmax_selection wEnv "ds/alice/a.png" "alice" wImgAr (by decide) (by rfl) (by decide)

/-- C8 counterexample: the claim says the normalised box is denormalised
against the original pre-resize dimensions.  In c8env the original photo
is 900 x 1200 and GetImage resizes it to 450 x 600; the best detection is
the upper-left quarter box (0, 0, 1/2, 1/2) and the embedder oracle
records the shape of the crop it receives.  ProcessImage records the crop
shape (225, 300) = (int(0.5 * 450), int(0.5 * 600)): the box was
multiplied by the RESIZED dimensions.  Had it been multiplied by the
original dimensions as the claim states, the corner would be
(int(0.5 * 1200), int(0.5 * 900)) = (600, 450) and the recorded clamped
crop shape would be (450, 600). -/
theorem C8_counterexample :
    ProcessImage c8env "ds/alice/a.png"
      = .ok (some ([[{ num := 225, den := 1 }, { num := 300, den := 1 }]], "alice")) ∧
    truncMul detQuarter.x2 1200 = 600 ∧
    truncMul detQuarter.y2 900 = 450 ∧
    embedShape (npCrop c8imgR 0 450 0 600) = [[{ num := 450, den := 1 }, { num := 600, den := 1 }]] ∧
    ¬ ProcessImage c8env "ds/alice/a.png"
      = .ok (some ([[{ num := 450, den := 1 }, { num := 600, den := 1 }]], "alice")) := by
  decide

/-- C8 amended: for every accepted detection the normalised box corners
are multiplied by the width and height of the RESIZED image returned by
GetImage (width 600, height int(h * 600 / w) of the original), not by the
original pre-resize dimensions, and the resulting truncated integers are
the crop coordinates of the best-row pipeline. -/
theorem C8_denormalised_against_resized (env : Env) (path name : String) (orig : Image)
    (hname : pyGetNeg2 (splitPath path) = .ok name)
    (hread : env.imread path = some orig)
    (hne : env.detect (imutilsResize env.cvResize orig 600) ≠ []) :
    (imutilsResize env.cvResize orig 600).w = 600 ∧
    (imutilsResize env.cvResize orig 600).h = orig.h * 600 / orig.w ∧
    ProcessImage env path
      = bestOnlyResult env (imutilsResize env.cvResize orig 600) name := by
  refine ⟨rfl, rfl, ?_⟩
  refine ProcessImage_char env path name _ hname ?_ hne
  unfold GetImage
  rw [hread]

/-- C8 amended witness: in c8env the 900 x 1200 original resizes to
450 x 600 and ProcessImage computes the best-row pipeline on the resized
image. -/
theorem C8_witness :
    (imutilsResize c8env.cvResize imgWide 600).w = 600 ∧
    (imutilsResize c8env.cvResize imgWide 600).h = imgWide.h * 600 / imgWide.w ∧
    ProcessImage c8env "ds/alice/a.png"
      = bestOnlyResult c8env (imutilsResize c8env.cvResize imgWide 600) "alice" :=
  C8_denormalised_against_resized c8env "ds/alice/a.png" "alice" imgWide
    (by decide) (by rfl) (by decide)

/-- C9: The pipeline is deterministic in its inputs.  Two environments
that agree on the discovered path list, on the decode of every discovered
path and on the three model oracles produce identical outputs - in
particular identical (bit-identical in the exact float model) embedding
sequences - for any arguments passed to ProcessFolders.  Running the
pure ProcessFolders twice on one unchanged environment is the special
case e₁ = e₂. -/
theorem C9_deterministic (e₁ e₂ : Env) (d₁ d₂ : String)
    (hlist : e₁.listImages e₁.dataset = e₂.listImages e₂.dataset)
    (hread : ∀ p ∈ e₁.listImages e₁.dataset, e₁.imread p = e₂.imread p)
    (hresize : e₁.cvResize = e₂.cvResize)
    (hdetect : e₁.detect = e₂.detect)
    (hembed : e₁.embed = e₂.embed) :
    ProcessFolders e₁ d₁ = ProcessFolders e₂ d₂ := by
  unfold ProcessFolders
  rw [foldlM_congr_of_mem (processStep e₁) (processStep e₂) (e₁.listImages e₁.dataset)
      (fun p hp acc => processStep_congr e₁ e₂ p (hread p hp) hresize hdetect hembed acc)
      initOutput,
    hlist]

/-- C9 witness: wEnv2 differs from wEnv in the decode of a file that is
not among the discovered paths, and the two runs (with different ignored
arguments) produce identical outputs. -/
theorem C9_witness : ProcessFolders wEnv "p" = ProcessFolders wEnv2 "q" :=
  C9_deterministic wEnv wEnv2 "p" "q" rfl
    (by
      intro p hp
      rcases List.mem_cons.mp hp with rfl | hp
      · rfl
      · rcases List.mem_cons.mp hp with rfl | hp
        · rfl
        · simp at hp)
    rfl rfl rfl

/-- C10 counterexample: the claim says a box partially outside the image
bounds yields a clamped region with width or height below 20 and hence
none.  On the 450 x 600 image the box startX = 550, endX = 700 exceeds
the right edge; numpy clamps the slice to columns 550..600, a 100 x 50
region, both dimensions at least 20, so ExtractEmbedding invokes the
embedder and returns an embedding instead of none. -/
theorem C10_counterexample :
    sliceLen 550 700 imgA.w = 50 ∧
    ExtractEmbedding embedShape imgA 550 700 0 100
      = some [[{ num := 100, den := 1 }, { num := 50, den := 1 }]] ∧
    ¬ ExtractEmbedding embedShape imgA 550 700 0 100 = none := by
  decide

/-- C10 amended: ExtractEmbedding never raises for arbitrary integer box
coordinates - numpy basic slicing clamps them into the axis bounds, with
negative values counting from the end of the axis.  Inverted or
degenerate non-negative coordinates (endX at most startX, or endY at most
startY) give an empty slice and hence none before the embedder runs, and
so does every box whose clamped region has width or height below 20; but
a box reaching outside the bounds whose clamped region still measures at
least 20 x 20 does invoke the embedder. -/
theorem C10_clamped_slice (f : Image → List (List PyFloat)) (image : Image)
    (sx ex sy ey : Int) :
    (0 ≤ ex → ex ≤ sx → ExtractEmbedding f image sx ex sy ey = none) ∧
    (0 ≤ ey → ey ≤ sy → ExtractEmbedding f image sx ex sy ey = none) ∧
    (sliceLen sx ex image.w < 20 ∨ sliceLen sy ey image.h < 20 →
      ExtractEmbedding f image sx ex sy ey = none) ∧
    (20 ≤ sliceLen sx ex image.w → 20 ≤ sliceLen sy ey image.h →
      ExtractEmbedding f image sx ex sy ey = some (f (npCrop image sy ey sx ex))) := by
  have hzero : ∀ (a b : Int) (n : Nat), 0 ≤ b → b ≤ a → sliceLen a b n = 0 := by
    intro a b n h0 hba
    unfold sliceLen npIdx
    split_ifs <;> omega
  have hsmall : sliceLen sx ex image.w < 20 ∨ sliceLen sy ey image.h < 20 →
      ExtractEmbedding f image sx ex sy ey = none := by
    intro hs
    unfold ExtractEmbedding
    exact if_pos hs
  refine ⟨?_, ?_, hsmall, ?_⟩
  · intro h0 hba
    exact hsmall (Or.inl (by rw [hzero sx ex image.w h0 hba]; omega))
  · intro h0 hba
    exact hsmall (Or.inr (by rw [hzero sy ey image.h h0 hba]; omega))
  · intro h1 h2
    unfold ExtractEmbedding
    refine if_neg ?_
    have hw : (npCrop image sy ey sx ex).w = sliceLen sx ex image.w := rfl
    have hh : (npCrop image sy ey sx ex).h = sliceLen sy ey image.h := rfl
    rw [hw, hh]
    push_neg
    omega

/-- C10 witness: an inverted x range, an inverted y range and a
too-small box are all rejected, and the clamped out-of-bounds box of the
counterexample reaches the embedder. -/
theorem C10_witness :
    ExtractEmbedding embedShape imgA 30 10 0 100 = none ∧
    ExtractEmbedding embedShape imgA 0 100 40 10 = none ∧
    ExtractEmbedding embedShape imgA 0 10 0 100 = none ∧
    ExtractEmbedding embedShape imgA 550 700 0 100
      = some (embedShape (npCrop imgA 0 100 550 700)) :=
  ⟨(C10_clamped_slice embedShape imgA 30 10 0 100).1 (by decide) (by decide),
   (C10_clamped_slice embedShape imgA 0 100 40 10).2.1 (by decide) (by decide),
   (C10_clamped_slice embedShape imgA 0 10 0 100).2.2.1 (by decide),
   (C10_clamped_slice embedShape imgA 550 700 0 100).2.2.2 (by decide) (by decide)⟩
